import Mathlib

/-!
Verification development for the Schwab-1099B-CSV to TXF converter
(source: convert_schwab_csv_to_txf.py).

The Python program is shallowly embedded as executable Lean definitions:

* Python float values are modelled exactly: every literal the program parses
  is a decimal, so a value is represented as mantissa times a power of ten
  (structure Money), with exact integer arithmetic; Money.toRat gives the
  rational value it denotes.  The builtin float() on ordinary decimal and
  scientific literals is modelled by parseMoney.  Underscore digit
  separators and the special values inf and nan are outside the model.
* The two-decimal f-string formatting is modelled by format2 with
  round-half-to-even, which agrees with CPython on every value that is not
  within a double rounding error of a tie at the third decimal place.
* datetime.strptime with the MM/DD/YYYY pattern is modelled by parseDateMDY,
  following the field regexes of CPython (month and day accept one digit or
  two digits, the year exactly four digits) plus the calendar validation of
  the datetime constructor.  strftime re-formatting is modelled by
  formatDateMDY with zero-padded month and day.
* Python string methods strip, replace, upper, lower, startswith are
  modelled on ASCII by pyStrip, removeCommas, pyUpper, pyLower,
  pyStartsWith.
* csv.DictReader is modelled at the line level: parseCsvLine splits one line
  per the excel dialect, and dictGet reproduces dict(zip(fieldnames, row))
  together with the restval behaviour, where a key present in the fieldnames
  but missing from a short row maps to Python None.  Calling .strip() on such
  a None raises AttributeError, which the per-row try/except (which only
  catches ValueError and KeyError) does not intercept; this is modelled by
  the crashed outcome, which aborts the remaining rows.
* File system behaviour is modelled by data flow: the converter takes the
  list of input lines and returns none when it aborts before the output file
  is created, and otherwise the output line list, the running totals, and a
  flag that is false when an uncaught per-row exception stopped the loop
  before the totals were reported.
-/

set_option maxRecDepth 16000

namespace SchwabTxf

/-- Python str.strip whitespace (the ASCII part). -/
def isPySpace (c : Char) : Bool :=
  c = ' ' || c = '\t' || c = '\n' || c = '\r' || c = '\x0b' || c = '\x0c'

/-- Strip leading and trailing whitespace from a character list. -/
def stripChars (cs : List Char) : List Char :=
  ((cs.dropWhile isPySpace).reverse.dropWhile isPySpace).reverse

/-- Model of Python str.strip(). -/
def pyStrip (s : String) : String := String.mk (stripChars s.toList)

/-- Model of Python str.replace(",", ""): remove every comma. -/
def removeCommas (s : String) : String :=
  String.mk (s.toList.filter (fun c => !(c = ',')))

/-- Model of Python str.startswith. -/
def pyStartsWith (s t : String) : Bool := t.toList.isPrefixOf s.toList

/-- Model of Python slicing s[1:]. -/
def dropFirstChar (s : String) : String := String.mk (s.toList.drop 1)

/-- ASCII uppercase conversion of one character. -/
def asciiUpperChar (c : Char) : Char :=
  match c with
  | 'a' => 'A' | 'b' => 'B' | 'c' => 'C' | 'd' => 'D' | 'e' => 'E' | 'f' => 'F'
  | 'g' => 'G' | 'h' => 'H' | 'i' => 'I' | 'j' => 'J' | 'k' => 'K' | 'l' => 'L'
  | 'm' => 'M' | 'n' => 'N' | 'o' => 'O' | 'p' => 'P' | 'q' => 'Q' | 'r' => 'R'
  | 's' => 'S' | 't' => 'T' | 'u' => 'U' | 'v' => 'V' | 'w' => 'W' | 'x' => 'X'
  | 'y' => 'Y' | 'z' => 'Z' | other => other

/-- ASCII lowercase conversion of one character. -/
def asciiLowerChar (c : Char) : Char :=
  match c with
  | 'A' => 'a' | 'B' => 'b' | 'C' => 'c' | 'D' => 'd' | 'E' => 'e' | 'F' => 'f'
  | 'G' => 'g' | 'H' => 'h' | 'I' => 'i' | 'J' => 'j' | 'K' => 'k' | 'L' => 'l'
  | 'M' => 'm' | 'N' => 'n' | 'O' => 'o' | 'P' => 'p' | 'Q' => 'q' | 'R' => 'r'
  | 'S' => 's' | 'T' => 't' | 'U' => 'u' | 'V' => 'v' | 'W' => 'w' | 'X' => 'x'
  | 'Y' => 'y' | 'Z' => 'z' | other => other

/-- Model of Python str.upper() on ASCII. -/
def pyUpper (s : String) : String := String.mk (s.toList.map asciiUpperChar)

/-- Model of Python str.lower() on ASCII. -/
def pyLower (s : String) : String := String.mk (s.toList.map asciiLowerChar)

/-- Decimal digit test. -/
def isDigitC (c : Char) : Bool := 48 ≤ c.toNat && c.toNat ≤ 57

/-- One decimal digit character. -/
def digitChar (d : Nat) : Char :=
  (['0', '1', '2', '3', '4', '5', '6', '7', '8', '9']).getD d '0'

/-- Decimal rendering of a natural number onto an accumulator, with explicit
fuel so that the recursion is structural. -/
def natReprRec : Nat → Nat → List Char → List Char
  | 0, _, acc => acc
  | fuel + 1, n, acc =>
    if n < 10 then digitChar n :: acc
    else natReprRec fuel (n / 10) (digitChar (n % 10) :: acc)

/-- Decimal rendering of a natural number onto an accumulator. -/
def natReprAux (n : Nat) (acc : List Char) : List Char := natReprRec (n + 1) n acc

/-- Decimal rendering of a natural number. -/
def natRepr (n : Nat) : String := String.mk (natReprAux n [])

/-- Two-character zero-padded decimal rendering, as a character list. -/
def pad2Chars (k : Nat) : List Char :=
  if k < 10 then '0' :: natReprAux k [] else natReprAux k []

/-- Two-character zero-padded decimal rendering. -/
def pad2 (n : Nat) : String := String.mk (pad2Chars n)

/-- Numeric value of a digit character. -/
def charDigit (c : Char) : Nat := c.toNat - 48

/-- Value of a list of decimal digit characters. -/
def digitsToNat (cs : List Char) : Nat :=
  cs.foldl (fun a c => 10 * a + charDigit c) 0

/-- Exact value of a Python float parsed from a decimal literal: the
rational m * 10 ^ e. -/
structure Money where
  m : ℤ
  e : ℤ
deriving DecidableEq, Repr

/-- The rational value a Money denotes. -/
def Money.toRat (a : Money) : ℚ := (a.m : ℚ) * (10 : ℚ) ^ a.e

/-- The float 0.0. -/
def Money.zero : Money := ⟨0, 0⟩

/-- Whether the denoted value is zero (the Python != 0 test). -/
def Money.isZero (a : Money) : Bool := a.m = 0

/-- Exact addition. -/
def Money.add (a b : Money) : Money :=
  if a.e ≤ b.e then ⟨a.m + b.m * (10 : ℤ) ^ (b.e - a.e).toNat, a.e⟩
  else ⟨a.m * (10 : ℤ) ^ (a.e - b.e).toNat + b.m, b.e⟩

/-- Exact negation. -/
def Money.neg (a : Money) : Money := ⟨-a.m, a.e⟩

/-- Exact subtraction. -/
def Money.sub (a b : Money) : Money := a.add b.neg

/-- The absolute denoted value times 100, rounded to the nearest integer
with ties to even: the integer CPython renders when formatting the value to
two decimal places. -/
def Money.round2 (a : Money) : Nat :=
  let e2 := a.e + 2
  let am := a.m.natAbs
  if 0 ≤ e2 then am * 10 ^ e2.toNat
  else
    let n := 10 ^ (-e2).toNat
    let d := am / n
    let r := am % n
    if 2 * r < n then d
    else if n < 2 * r then d + 1
    else if d % 2 = 0 then d else d + 1

/-- Character list of the two-decimal formatting of a Money value. -/
def format2Chars (a : Money) : List Char :=
  let n := a.round2
  (if a.m < 0 then ['-'] else []) ++ natReprAux (n / 100) [] ++ '.' :: pad2Chars (n % 100)

/-- Model of the Python f-string formatting to two decimal places. -/
def format2 (a : Money) : String := String.mk (format2Chars a)

/-- Model of Python float() on a decimal or scientific literal.  Returns the
exact value, or none when the literal is malformed (Python raises ValueError
there). -/
def parseMoney (s : String) : Option Money :=
  let cs := stripChars s.toList
  let sgnRest : ℤ × List Char :=
    match cs with
    | '+' :: r => (1, r)
    | '-' :: r => (-1, r)
    | _ => (1, cs)
  let sgn := sgnRest.1
  let cs1 := sgnRest.2
  let ip := cs1.takeWhile isDigitC
  let rest1 := cs1.dropWhile isDigitC
  let fpRest : List Char × List Char :=
    match rest1 with
    | '.' :: r => (r.takeWhile isDigitC, r.dropWhile isDigitC)
    | _ => ([], rest1)
  let fp := fpRest.1
  let rest2 := fpRest.2
  if ip.isEmpty && fp.isEmpty then none
  else
    let mant : ℤ := sgn * (digitsToNat (ip ++ fp) : ℤ)
    match rest2 with
    | [] => some ⟨mant, -(fp.length : ℤ)⟩
    | 'e' :: r =>
      let esgnRest : ℤ × List Char :=
        match r with
        | '+' :: rr => (1, rr)
        | '-' :: rr => (-1, rr)
        | _ => (1, r)
      let ed := esgnRest.2.takeWhile isDigitC
      let rest3 := esgnRest.2.dropWhile isDigitC
      if ed.isEmpty || !rest3.isEmpty then none
      else some ⟨mant, esgnRest.1 * (digitsToNat ed : ℤ) - (fp.length : ℤ)⟩
    | 'E' :: r =>
      let esgnRest : ℤ × List Char :=
        match r with
        | '+' :: rr => (1, rr)
        | '-' :: rr => (-1, rr)
        | _ => (1, r)
      let ed := esgnRest.2.takeWhile isDigitC
      let rest3 := esgnRest.2.dropWhile isDigitC
      if ed.isEmpty || !rest3.isEmpty then none
      else some ⟨mant, esgnRest.1 * (digitsToNat ed : ℤ) - (fp.length : ℤ)⟩
    | _ => none

/-- Gregorian leap-year test as used by Python datetime. -/
def isLeap (y : Nat) : Bool := y % 4 == 0 && (y % 100 != 0 || y % 400 == 0)

/-- Days in a month of the proleptic Gregorian calendar. -/
def daysInMonth (y m : Nat) : Nat :=
  if m = 2 then (if isLeap y then 29 else 28)
  else if m = 4 ∨ m = 6 ∨ m = 9 ∨ m = 11 then 30 else 31

/-- A calendar date as produced by the strptime model. -/
structure Date where
  month : Nat
  day : Nat
  year : Nat
deriving DecidableEq, Repr

/-- One- or two-digit numeric field of strptime: a single digit 1-9, or two
digits with value between 1 and the bound. -/
def parse2dig (s : List Char) (hi : Nat) : Option Nat :=
  if s.all isDigitC then
    if s.length = 1 then
      (if 1 ≤ digitsToNat s then some (digitsToNat s) else none)
    else if s.length = 2 then
      (if 1 ≤ digitsToNat s ∧ digitsToNat s ≤ hi then some (digitsToNat s) else none)
    else none
  else none

/-- Split a character list at every slash. -/
def splitOnSlash : List Char → List (List Char)
  | [] => [[]]
  | '/' :: r => [] :: splitOnSlash r
  | c :: r =>
    match splitOnSlash r with
    | h :: t => (c :: h) :: t
    | [] => [[c]]

/-- Model of datetime.strptime(s, m/d/Y pattern) followed by the calendar
validation of the datetime constructor.  none models the ValueError. -/
def parseDateMDY (s : String) : Option Date :=
  match splitOnSlash s.toList with
  | [ms, ds, ys] =>
    match parse2dig ms 12, parse2dig ds 31 with
    | some m, some d =>
      if ys.length = 4 ∧ ys.all isDigitC then
        let y := digitsToNat ys
        if 1 ≤ y ∧ d ≤ daysInMonth y m then some ⟨m, d, y⟩ else none
      else none
    | _, _ => none
  | _ => none

/-- Model of strftime with the m/d/Y pattern: zero-padded month and day. -/
def formatDateMDY (dt : Date) : String :=
  pad2 dt.month ++ "/" ++ pad2 dt.day ++ "/" ++ natRepr dt.year

/-- Scanner modes of the csv excel dialect. -/
inductive CsvMode where
  | fieldStart
  | unquoted
  | quoted
deriving DecidableEq

/-- Field splitter of one csv line (excel dialect: comma delimiter, double
quote as quote character, doubled quote as escaped quote, characters after a
closing quote appended literally). -/
def csvSplitAux : List Char → CsvMode → List Char → List (List Char) → List (List Char)
  | [], _, cur, acc => acc ++ [cur]
  | c :: cs, CsvMode.fieldStart, cur, acc =>
    if c = '\"' then csvSplitAux cs CsvMode.quoted cur acc
    else if c = ',' then csvSplitAux cs CsvMode.fieldStart [] (acc ++ [cur])
    else csvSplitAux cs CsvMode.unquoted (cur ++ [c]) acc
  | c :: cs, CsvMode.unquoted, cur, acc =>
    if c = ',' then csvSplitAux cs CsvMode.fieldStart [] (acc ++ [cur])
    else csvSplitAux cs CsvMode.unquoted (cur ++ [c]) acc
  | '\"' :: '\"' :: cs2, CsvMode.quoted, cur, acc =>
    csvSplitAux cs2 CsvMode.quoted (cur ++ ['\"']) acc
  | '\"' :: cs, CsvMode.quoted, cur, acc =>
    csvSplitAux cs CsvMode.unquoted cur acc
  | c :: cs, CsvMode.quoted, cur, acc =>
    csvSplitAux cs CsvMode.quoted (cur ++ [c]) acc

/-- Model of csv.reader on one line: a blank line gives the empty row, which
DictReader skips. -/
def parseCsvLine (s : String) : List String :=
  if s = "" then [] else (csvSplitAux s.toList CsvMode.fieldStart [] []).map String.mk

/-- Index of the last occurrence of a key in the fieldnames list.  Python
dict construction from zip makes the last duplicate win, and the restval
fill-in of DictReader also targets the last occurrence. -/
def lastIdxOf : List String → String → Option Nat
  | [], _ => none
  | a :: r, key =>
    match lastIdxOf r key with
    | some j => some (j + 1)
    | none => if a = key then some 0 else none

/-- Model of row.get(key, default) on a DictReader row built from the given
fieldnames and raw field list.  some models a str result (the stored value
or the default), none models Python None, which DictReader stores (restval)
for fieldnames beyond the end of a short row. -/
def dictGet (fieldnames row : List String) (key dflt : String) : Option String :=
  match lastIdxOf fieldnames key with
  | none => some dflt
  | some j => row.get? j

/-- Mapping of Form 8949 codes to TXF record types, combined with the
dict .get default of N711 (source lines 50-58 and 134). -/
def form_8949_to_record_type (code : String) : String :=
  if code = "A" then "N321"
  else if code = "B" then "N711"
  else if code = "C" then "N712"
  else if code = "D" then "N323"
  else if code = "E" then "N713"
  else if code = "F" then "N714"
  else if code = "X" then "N711"
  else "N711"

/-- The cleaned per-row fields extracted at source lines 92-102. -/
structure RawFields where
  description : String
  date_acquired : String
  date_sold : String
  proceeds : String
  basis : String
  wash : String
  form_code : String
deriving DecidableEq, Repr

/-- Column header of the description field. -/
def descKey : String := "Description of property (Example 100 sh. XYZ Co.)"

/-- Comma removal, strip, and dollar-sign strip applied to the wash field
(source lines 97 and 100-102). -/
def washClean (w0 : String) : String :=
  let w1 := pyStrip (removeCommas w0)
  if pyStartsWith w1 "$" then dropFirstChar w1 else w1

/-- Field extraction of source lines 92-102.  A none result models the
uncaught AttributeError raised by calling .strip() on the Python None that
DictReader stores for a field missing from a short row. -/
def extractFields (fieldnames row : List String) : Option RawFields :=
  (dictGet fieldnames row descKey "").bind fun d0 =>
  (dictGet fieldnames row "Date acquired" "").bind fun a0 =>
  (dictGet fieldnames row "Date sold or disposed" "").bind fun s0 =>
  (dictGet fieldnames row "Proceeds" "0.00").bind fun p0 =>
  (dictGet fieldnames row "Cost or other basis" "0.00").bind fun b0 =>
  (dictGet fieldnames row "Wash sale loss disallowed" "0.00").bind fun w0 =>
  (dictGet fieldnames row "Form 8949 Code" "").bind fun c0 =>
  some ⟨pyStrip d0, pyStrip a0, pyStrip s0, pyStrip (removeCommas p0),
        pyStrip (removeCommas b0), washClean w0, pyUpper (pyStrip c0)⟩

/-- Model of write_txf_record (source lines 17-38): the lines of one record
block.  none models a ValueError from the float() calls, which cannot occur
on the pre-validated arguments the converter passes. -/
def write_txf_record (description date_acquired date_sold proceeds basis wash record_type : String) :
    Option (List String) :=
  (parseMoney proceeds).bind fun p =>
  (parseMoney basis).bind fun b =>
  (if wash = "" then some "0.00" else (parseMoney wash).map format2).bind fun wash_formatted =>
  (parseMoney wash_formatted).bind fun wfv =>
  some (["TD", record_type, "C1", "L1", "P" ++ description,
         "D" ++ date_acquired, "D" ++ date_sold,
         "$" ++ format2 b, "$" ++ format2 p]
        ++ (if !wfv.isZero then ["$" ++ wash_formatted] else []) ++ ["^"])

/-- Wash value parsing of source line 108: float(wash) if wash else 0.0. -/
def parseWash (wash : String) : Option Money :=
  if wash = "" then some Money.zero else parseMoney wash

/-- Wash argument passed to write_txf_record at source line 143. -/
def washArg (wf : Money) (wash : String) : String :=
  if !wf.isZero then wash else ""

/-- Date-acquired resolution of source lines 122-131. -/
def resolveDateAcquired (acq soldFormatted : String) : Option String :=
  if acq = "" then some soldFormatted
  else if pyLower acq = "various" then some "VARIOUS"
  else (parseDateMDY acq).map formatDateMDY

/-- Outcome of processing one data row (source lines 89-150).  emitted
carries the record lines and the deltas added to the four running totals;
skipped models a caught ValueError, carrying the deltas already added before
the failing step; crashed models an uncaught exception that aborts the
loop. -/
inductive RowOutcome where
  | emitted (recLines : List String) (p b w wa : Money)
  | skipped (p b w wa : Money)
  | crashed
deriving DecidableEq, Repr

/-- Normalization and emission of one row from its cleaned fields
(source lines 104-143). -/
def normalizeRow (f : RawFields) : RowOutcome :=
  match parseMoney f.proceeds, parseMoney f.basis, parseWash f.wash with
  | some pf, some bf, some wf =>
    let wa := pf.sub (bf.sub wf)
    match parseDateMDY f.date_sold with
    | none => RowOutcome.skipped Money.zero Money.zero Money.zero wa
    | some dt =>
      let dsF := formatDateMDY dt
      match resolveDateAcquired f.date_acquired dsF with
      | none => RowOutcome.skipped Money.zero Money.zero Money.zero wa
      | some daF =>
        let rt := form_8949_to_record_type f.form_code
        match write_txf_record f.description daF dsF f.proceeds f.basis (washArg wf f.wash) rt with
        | some ls => RowOutcome.emitted ls pf bf wf wa
        | none => RowOutcome.skipped pf bf wf wa
  | _, _, _ => RowOutcome.skipped Money.zero Money.zero Money.zero Money.zero

/-- Processing of one raw row: field extraction, then normalization. -/
def processRow (fieldnames row : List String) : RowOutcome :=
  match extractFields fieldnames row with
  | none => RowOutcome.crashed
  | some f => normalizeRow f

/-- The four running totals (source lines 44-47). -/
structure Totals where
  proceeds : Money
  basis : Money
  wash : Money
  washAdj : Money
deriving DecidableEq, Repr

/-- Zero totals. -/
def Totals.zero : Totals := ⟨Money.zero, Money.zero, Money.zero, Money.zero⟩

/-- Componentwise addition of totals. -/
def Totals.add (a b : Totals) : Totals :=
  ⟨a.proceeds.add b.proceeds, a.basis.add b.basis, a.wash.add b.wash, a.washAdj.add b.washAdj⟩

/-- Result of the row loop: emitted output lines, accumulated totals, and
whether the loop ran to completion (false when a row crashed, in which case
the totals are never reported). -/
structure RunResult where
  out : List String
  totals : Totals
  completed : Bool
deriving DecidableEq, Repr

/-- The row loop of source lines 89-150 with crash-abort semantics. -/
def runRows (fieldnames : List String) : List (List String) → RunResult
  | [] => ⟨[], Totals.zero, true⟩
  | r :: rs =>
    match processRow fieldnames r with
    | RowOutcome.crashed => ⟨[], Totals.zero, false⟩
    | RowOutcome.emitted ls p b w wa =>
      let rest := runRows fieldnames rs
      ⟨ls ++ rest.out, Totals.add ⟨p, b, w, wa⟩ rest.totals, rest.completed⟩
    | RowOutcome.skipped p b w wa =>
      let rest := runRows fieldnames rs
      ⟨rest.out, Totals.add ⟨p, b, w, wa⟩ rest.totals, rest.completed⟩

/-- The four fixed TXF header lines written by write_txf_header
(source lines 7-15); the export-date line is the hardcoded literal of
source line 12. -/
def txfHeaderLines : List String := ["V042", "ACharles Schwab", "D02/23/2025", "^"]

/-- The quoted header literal searched for at source line 67. -/
def headerLiteral : String := "\"Description of property (Example 100 sh. XYZ Co.)\""

/-- Header search of source lines 64-70: index of the first line whose
stripped content starts with the header literal. -/
def findHeader : List String → Option Nat
  | [] => none
  | l :: ls =>
    if pyStartsWith (pyStrip l) headerLiteral then some 0
    else (findHeader ls).map (· + 1)

/-- The DictReader fieldnames: the csv fields of the stripped header line. -/
def headerFieldnames (lines : List String) (i : Nat) : List String :=
  parseCsvLine (pyStrip (lines.getD i ""))

/-- The data rows after the header line, csv-split, with blank rows skipped
as DictReader does. -/
def dataRowsOf (lines : List String) (i : Nat) : List (List String) :=
  ((lines.drop (i + 1)).map parseCsvLine).filter (fun r => !r.isEmpty)

/-- Result of one whole conversion: the output file lines, the totals, and
whether the run completed (reported its totals). -/
structure ConvertResult where
  output : List String
  totals : Totals
  completed : Bool
deriving DecidableEq, Repr

/-- Conversion given the index of the located header line. -/
def convertFrom (lines : List String) (i : Nat) : ConvertResult :=
  let rr := runRows (headerFieldnames lines i) (dataRowsOf lines i)
  ⟨txfHeaderLines ++ rr.out, rr.totals, rr.completed⟩

/-- Model of convert_schwab_csv_to_txf (source lines 40-160) on the list of
input lines.  none models the fatal ValueError raised before the output file
is opened when no header line is found. -/
def convert_schwab_csv_to_txf (lines : List String) : Option ConvertResult :=
  match findHeader lines with
  | none => none
  | some i => some (convertFrom lines i)

/-! Specification-side definitions used to state the claims. -/

/-- The rows the loop actually processes: the prefix of the data rows up to
(and excluding) the first crashing row. -/
def takeUntilCrash (fieldnames : List String) : List (List String) → List (List String)
  | [] => []
  | r :: rs =>
    match processRow fieldnames r with
    | RowOutcome.crashed => []
    | _ => r :: takeUntilCrash fieldnames rs

/-- The record block a row contributes, when it is emitted. -/
def emittedLines (fieldnames : List String) (r : List String) : Option (List String) :=
  match processRow fieldnames r with
  | RowOutcome.emitted ls _ _ _ _ => some ls
  | _ => none

/-- Number of characters after the last dot of a character list, if any dot
occurs. -/
def afterLastDot : List Char → Option Nat
  | [] => none
  | c :: cs =>
    if c = '.' then
      some (match afterLastDot cs with
            | some k => k
            | none => cs.length)
    else afterLastDot cs

/-- Number of decimal places of a rendered number: the count of characters
after the last dot. -/
def decimalsAfterPoint (s : String) : Option Nat := afterLastDot s.toList

/-! Bridging lemmas between Money and the rational value it denotes. -/

lemma Money.toRat_zero : Money.zero.toRat = 0 := by
  simp [Money.zero, Money.toRat]

lemma Money.isZero_iff (a : Money) : a.isZero = true ↔ a.toRat = 0 := by
  unfold Money.isZero Money.toRat
  constructor
  · intro h
    simp only [decide_eq_true_eq] at h
    simp [h]
  · intro h
    rcases mul_eq_zero.mp h with h1 | h2
    · simp [Int.cast_eq_zero.mp h1]
    · exact absurd h2 (zpow_ne_zero _ (by norm_num))

lemma Money.toRat_add (a b : Money) : (a.add b).toRat = a.toRat + b.toRat := by
  have h10 : (10 : ℚ) ≠ 0 := by norm_num
  unfold Money.add Money.toRat
  by_cases h : a.e ≤ b.e
  · simp only [if_pos h]
    have hk : ((b.e - a.e).toNat : ℤ) = b.e - a.e := Int.toNat_of_nonneg (by omega)
    push_cast
    rw [show ((10 : ℚ) ^ (b.e - a.e).toNat) = (10 : ℚ) ^ (((b.e - a.e).toNat : ℤ)) from
      (zpow_natCast _ _).symm, hk, add_mul, mul_assoc, ← zpow_add₀ h10]
    ring_nf
  · simp only [if_neg h]
    have hk : ((a.e - b.e).toNat : ℤ) = a.e - b.e := Int.toNat_of_nonneg (by omega)
    push_cast
    rw [show ((10 : ℚ) ^ (a.e - b.e).toNat) = (10 : ℚ) ^ (((a.e - b.e).toNat : ℤ)) from
      (zpow_natCast _ _).symm, hk, add_mul, mul_assoc, ← zpow_add₀ h10]
    ring_nf

lemma Money.toRat_neg (a : Money) : a.neg.toRat = -a.toRat := by
  unfold Money.neg Money.toRat
  push_cast
  ring

lemma Money.toRat_sub (a b : Money) : (a.sub b).toRat = a.toRat - b.toRat := by
  unfold Money.sub
  rw [Money.toRat_add, Money.toRat_neg]
  ring

/-! Helper lemmas about the header search. -/

lemma findHeader_eq_none (lines : List String)
    (h : ∀ l ∈ lines, pyStartsWith (pyStrip l) headerLiteral = false) :
    findHeader lines = none := by
  induction lines with
  | nil => rfl
  | cons l ls ih =>
    have hl := h l (List.mem_cons_self l ls)
    have ih2 := ih (fun x hx => h x (List.mem_cons_of_mem l hx))
    simp [findHeader, hl, ih2]

lemma findHeader_some (lines : List String) (i : Nat) (h : findHeader lines = some i) :
    pyStartsWith (pyStrip (lines.getD i "")) headerLiteral = true ∧
    ∀ j, j < i → pyStartsWith (pyStrip (lines.getD j "")) headerLiteral = false := by
  induction lines generalizing i with
  | nil => simp [findHeader] at h
  | cons l ls ih =>
    by_cases hc : pyStartsWith (pyStrip l) headerLiteral
    · rw [findHeader, if_pos hc] at h
      cases h
      exact ⟨hc, fun j hj => absurd hj (by omega)⟩
    · rw [findHeader, if_neg hc] at h
      rcases Option.map_eq_some'.mp h with ⟨i0, hi0, rfl⟩
      obtain ⟨h1, h2⟩ := ih i0 hi0
      refine ⟨by simpa using h1, fun j hj => ?_⟩
      cases j with
      | zero => simpa using (Bool.eq_false_iff.mpr hc)
      | succ j0 => simpa using h2 j0 (by omega)

/-! Helper lemmas about dictionary lookup. -/

lemma lastIdxOf_eq_none (l : List String) (key : String) (h : key ∉ l) :
    lastIdxOf l key = none := by
  induction l with
  | nil => rfl
  | cons a r ih =>
    have ha : ¬ a = key := by
      rintro rfl
      exact h (List.mem_cons_self _ _)
    have hr := ih (fun hm => h (List.mem_cons_of_mem _ hm))
    simp [lastIdxOf, hr, ha]

lemma dictGet_of_not_mem (fieldnames row : List String) (key dflt : String)
    (h : key ∉ fieldnames) : dictGet fieldnames row key dflt = some dflt := by
  unfold dictGet
  rw [lastIdxOf_eq_none _ _ h]

/-! Helper lemmas about the row loop. -/

lemma runRows_out (fn : List String) (rows : List (List String)) :
    (runRows fn rows).out =
      ((takeUntilCrash fn rows).filterMap (emittedLines fn)).flatten := by
  induction rows with
  | nil => rfl
  | cons r rs ih =>
    cases h : processRow fn r with
    | crashed => simp [runRows, takeUntilCrash, h]
    | emitted ls p b w wa => simp [runRows, takeUntilCrash, emittedLines, h, ih]
    | skipped p b w wa => simp [runRows, takeUntilCrash, emittedLines, h, ih]

/-! Helper lemmas about decimal rendering. -/

lemma digitChar_ne_dot (d : Nat) : digitChar d ≠ '.' := by
  unfold digitChar
  match d with
  | 0 | 1 | 2 | 3 | 4 | 5 | 6 | 7 | 8 | 9 => decide
  | n + 10 =>
    rw [List.getD_eq_default _ _ (by simp)]
    decide

lemma natReprRec_ne_dot (fuel : Nat) : ∀ (n : Nat) (acc : List Char),
    (∀ c ∈ acc, c ≠ '.') → ∀ c ∈ natReprRec fuel n acc, c ≠ '.' := by
  induction fuel with
  | zero =>
    intro n acc hacc c hc
    exact hacc c hc
  | succ fu ih =>
    intro n acc hacc c hc
    rw [natReprRec] at hc
    by_cases h : n < 10
    · rw [if_pos h] at hc
      rcases List.mem_cons.mp hc with rfl | hmem
      · exact digitChar_ne_dot _
      · exact hacc _ hmem
    · rw [if_neg h] at hc
      refine ih _ _ ?_ c hc
      intro c2 hc2
      rcases List.mem_cons.mp hc2 with rfl | hm
      · exact digitChar_ne_dot _
      · exact hacc _ hm

lemma natReprAux_ne_dot (n : Nat) (c : Char) (hc : c ∈ natReprAux n []) : c ≠ '.' := by
  exact natReprRec_ne_dot _ n [] (by simp) c hc

lemma natReprRec_of_lt (fuel n : Nat) (acc : List Char) (h : n < 10) (hf : 1 ≤ fuel) :
    natReprRec fuel n acc = digitChar n :: acc := by
  cases fuel with
  | zero => omega
  | succ f =>
    rw [natReprRec, if_pos h]

lemma natReprAux_lt_ten (k : Nat) (h : k < 10) : natReprAux k [] = [digitChar k] := by
  unfold natReprAux
  exact natReprRec_of_lt _ _ _ h (by omega)

lemma natReprAux_two_digits (k : Nat) (h1 : 10 ≤ k) (h2 : k < 100) :
    natReprAux k [] = [digitChar (k / 10), digitChar (k % 10)] := by
  unfold natReprAux
  cases k with
  | zero => omega
  | succ k0 =>
    rw [natReprRec, if_neg (by omega)]
    exact natReprRec_of_lt _ _ _ (by omega) (by omega)

lemma pad2Chars_length (k : Nat) (h : k < 100) : (pad2Chars k).length = 2 := by
  unfold pad2Chars
  by_cases hk : k < 10
  · rw [if_pos hk, natReprAux_lt_ten k hk]
    rfl
  · rw [if_neg hk, natReprAux_two_digits k (by omega) h]
    rfl

lemma pad2Chars_ne_dot (k : Nat) (c : Char) (hc : c ∈ pad2Chars k) : c ≠ '.' := by
  unfold pad2Chars at hc
  by_cases hk : k < 10
  · rw [if_pos hk] at hc
    rcases List.mem_cons.mp hc with rfl | hm
    · decide
    · exact natReprAux_ne_dot _ _ hm
  · rw [if_neg hk] at hc
    exact natReprAux_ne_dot _ _ hc

/-! Helper lemmas about counting decimal places. -/

lemma afterLastDot_of_no_dot (l : List Char) (h : ∀ c ∈ l, c ≠ '.') :
    afterLastDot l = none := by
  induction l with
  | nil => rfl
  | cons c cs ih =>
    have hc : ¬ c = '.' := h c (List.mem_cons_self _ _)
    rw [afterLastDot, if_neg hc]
    exact ih (fun x hx => h x (List.mem_cons_of_mem _ hx))

lemma afterLastDot_append (pre tail : List Char) (h : ∀ c ∈ tail, c ≠ '.') :
    afterLastDot (pre ++ '.' :: tail) = some tail.length := by
  induction pre with
  | nil =>
    rw [List.nil_append, afterLastDot, if_pos rfl, afterLastDot_of_no_dot tail h]
  | cons c pre ih =>
    by_cases hc : c = '.'
    · subst hc
      rw [List.cons_append, afterLastDot, if_pos rfl, ih]
    · rw [List.cons_append, afterLastDot, if_neg hc, ih]

/-! Helper lemmas about formatting zero. -/

lemma round2_of_zero (e : ℤ) : Money.round2 ⟨0, e⟩ = 0 := by
  have hn : 0 < 10 ^ (-(e + 2)).toNat := pow_pos (by omega) _
  simp [Money.round2, hn]

lemma format2_of_isZero (a : Money) (h : a.isZero = true) : format2 a = "0.00" := by
  obtain ⟨m, e⟩ := a
  have hm : m = 0 := by simpa [Money.isZero] using h
  subst hm
  unfold format2 format2Chars
  rw [round2_of_zero]
  dsimp only
  decide

/-! Inversion lemmas for the record writer and the row normalizer. -/

lemma write_txf_record_some (description daF dsF proceeds basis wash rt : String)
    (ls : List String)
    (h : write_txf_record description daF dsF proceeds basis wash rt = some ls) :
    ∃ p b wfm wfv,
      parseMoney proceeds = some p ∧ parseMoney basis = some b ∧
      (if wash = "" then some "0.00" else (parseMoney wash).map format2) = some wfm ∧
      parseMoney wfm = some wfv ∧
      ls = ["TD", rt, "C1", "L1", "P" ++ description, "D" ++ daF, "D" ++ dsF,
            "$" ++ format2 b, "$" ++ format2 p]
           ++ (if !wfv.isZero then ["$" ++ wfm] else []) ++ ["^"] := by
  simp only [write_txf_record, Option.bind_eq_some, Option.some.injEq] at h
  obtain ⟨p, hp, b, hb, wfm, hwfm, wfv, hwfv, hls⟩ := h
  exact ⟨p, b, wfm, wfv, hp, hb, hwfm, hwfv, hls.symm⟩

lemma parseWash_ne_empty (wash : String) (w : Money) (hw : parseWash wash = some w)
    (hnz : w.isZero = false) : wash ≠ "" ∧ parseMoney wash = some w := by
  unfold parseWash at hw
  by_cases he : wash = ""
  · rw [if_pos he] at hw
    cases hw
    simp [Money.zero, Money.isZero] at hnz
  · rw [if_neg he] at hw
    exact ⟨he, hw⟩

lemma normalizeRow_emitted (f : RawFields) (ls : List String) (p b w wa : Money)
    (h : normalizeRow f = RowOutcome.emitted ls p b w wa) :
    parseMoney f.proceeds = some p ∧ parseMoney f.basis = some b ∧
    parseWash f.wash = some w ∧ wa = p.sub (b.sub w) ∧
    ∃ dt daF wfv,
      parseDateMDY f.date_sold = some dt ∧
      resolveDateAcquired f.date_acquired (formatDateMDY dt) = some daF ∧
      parseMoney (format2 w) = some wfv ∧
      ls = ["TD", form_8949_to_record_type f.form_code, "C1", "L1",
            "P" ++ f.description, "D" ++ daF, "D" ++ formatDateMDY dt,
            "$" ++ format2 b, "$" ++ format2 p]
           ++ (if !wfv.isZero then ["$" ++ format2 w] else []) ++ ["^"] := by
  unfold normalizeRow at h
  cases hp : parseMoney f.proceeds with
  | none => simp [hp] at h
  | some pf =>
  cases hb : parseMoney f.basis with
  | none => simp [hp, hb] at h
  | some bf =>
  cases hw : parseWash f.wash with
  | none => simp [hp, hb, hw] at h
  | some wf =>
  simp only [hp, hb, hw] at h
  cases hd : parseDateMDY f.date_sold with
  | none => simp [hd] at h
  | some dt =>
  simp only [hd] at h
  cases hra : resolveDateAcquired f.date_acquired (formatDateMDY dt) with
  | none => simp [hra] at h
  | some daF =>
  simp only [hra] at h
  cases hwr : write_txf_record f.description daF (formatDateMDY dt) f.proceeds f.basis
      (washArg wf f.wash) (form_8949_to_record_type f.form_code) with
  | none => simp [hwr] at h
  | some ls0 =>
  simp only [hwr, RowOutcome.emitted.injEq] at h
  obtain ⟨hls, hpf, hbf, hwf, hwa⟩ := h
  subst hpf
  subst hbf
  subst hwf
  subst hls
  refine ⟨rfl, rfl, rfl, hwa.symm, ?_⟩
  obtain ⟨p2, b2, wfm, wfv, hp2, hb2, hwfm, hwfv, hls0⟩ :=
    write_txf_record_some _ _ _ _ _ _ _ _ hwr
  rw [hp] at hp2
  cases hp2
  rw [hb] at hb2
  cases hb2
  have hwfm2 : wfm = format2 wf := by
    by_cases hz : wf.isZero
    · have harg : washArg wf f.wash = "" := by
        unfold washArg
        rw [hz]
        rfl
      rw [harg, if_pos rfl] at hwfm
      cases hwfm
      exact (format2_of_isZero wf hz).symm
    · obtain ⟨hne, hpw⟩ := parseWash_ne_empty f.wash wf hw (Bool.eq_false_iff.mpr hz)
      have harg : washArg wf f.wash = f.wash := by
        unfold washArg
        rw [Bool.eq_false_iff.mpr hz]
        rfl
      rw [harg, if_neg hne, hpw] at hwfm
      cases hwfm
      rfl
  subst hwfm2
  exact ⟨dt, daF, wfv, rfl, hra, hwfv, hls0⟩

lemma normalizeRow_dateFail (f : RawFields) (p b w : Money)
    (hp : parseMoney f.proceeds = some p) (hb : parseMoney f.basis = some b)
    (hw : parseWash f.wash = some w)
    (hd : parseDateMDY f.date_sold = none ∨
      ∃ dt, parseDateMDY f.date_sold = some dt ∧
        resolveDateAcquired f.date_acquired (formatDateMDY dt) = none) :
    normalizeRow f = RowOutcome.skipped Money.zero Money.zero Money.zero (p.sub (b.sub w)) := by
  unfold normalizeRow
  simp only [hp, hb, hw]
  rcases hd with hd | ⟨dt, hdt, hra⟩
  · simp only [hd]
  · simp only [hdt, hra]

lemma extractFields_proceeds_default (fn row : List String) (h : "Proceeds" ∉ fn)
    (f : RawFields) (hf : extractFields fn row = some f) : f.proceeds = "0.00" := by
  have hget : dictGet fn row "Proceeds" "0.00" = some "0.00" :=
    dictGet_of_not_mem _ _ _ _ h
  simp only [extractFields, hget, Option.bind_eq_some, Option.some.injEq] at hf
  obtain ⟨d0, hd0, a0, ha0, s0, hs0, p0, hp0, b0, hb0, w0, hw0, c0, hc0, hf⟩ := hf
  subst hp0
  rw [← hf]
  dsimp only
  decide

lemma decimalsAfterPoint_format2 (a : Money) : decimalsAfterPoint (format2 a) = some 2 := by
  unfold decimalsAfterPoint format2 format2Chars
  show afterLastDot
    ((if a.m < 0 then ['-'] else []) ++ natReprAux (a.round2 / 100) [] ++
      '.' :: pad2Chars (a.round2 % 100)) = some 2
  rw [afterLastDot_append _ _ (fun c hc => pad2Chars_ne_dot _ c hc),
    pad2Chars_length _ (Nat.mod_lt _ (by omega))]

/-! Concrete sample data used by witnesses and counterexamples. -/

/-- The Schwab 1099-B header line with all seven recognized columns. -/
def stdHeaderLine : String := "\"Description of property (Example 100 sh. XYZ Co.)\",\"Date acquired\",\"Date sold or disposed\",\"Proceeds\",\"Cost or other basis\",\"Wash sale loss disallowed\",\"Form 8949 Code\""

/-- The fieldnames parsed from the full header line. -/
def stdFields : List String := parseCsvLine stdHeaderLine

/-- A plain valid row: code A, no wash. -/
def fieldsA : RawFields := ⟨"100 sh. XYZ Co.", "01/01/2023", "02/01/2024", "1500", "1000", "", "A"⟩

/-- A valid row with a non-zero wash value. -/
def fieldsB : RawFields := ⟨"X co", "01/02/2023", "02/03/2024", "100", "50", "12.50", "B"⟩

/-- A valid row whose date-acquired field is the word Various. -/
def fieldsVar : RawFields := ⟨"X co", "Various", "02/03/2024", "100", "50", "", "B"⟩

/-- A row whose date-sold field is not a valid date. -/
def fieldsBadDate : RawFields := ⟨"X co", "01/02/2023", "13/45/2024", "100", "50", "2", "A"⟩

/-- A row whose wash value is non-zero but rounds to 0.00. -/
def fieldsWashTiny : RawFields := ⟨"X co", "01/02/2023", "02/03/2024", "100", "50", "0.001", "A"⟩

/-- A whole input file: two preamble lines, the header, one data row, one
blank line. -/
def sampleLines : List String :=
  ["junk,preamble", "more junk",
   stdHeaderLine,
   "\"100 sh. XYZ Co.\",\"01/01/2023\",\"02/01/2024\",\"1,500.00\",\"1,000.00\",\"\",\"A\"",
   ""]

/-- The record block emitted for the data row of sampleLines. -/
def sampleBlock : List String :=
  ["TD", "N321", "C1", "L1", "P100 sh. XYZ Co.", "D01/01/2023", "D02/01/2024",
   "$1000.00", "$1500.00", "^"]

/-- An input file whose second data row is valid but whose first data row
has fewer fields than the header. -/
def crashLines : List String :=
  [stdHeaderLine,
   "\"100 sh. XYZ Co.\"",
   "\"X co\",\"01/01/2023\",\"02/01/2024\",\"1500\",\"1000\",\"\",\"A\""]

/-- A header line lacking the Proceeds column. -/
def noProceedsHeader : String := "\"Description of property (Example 100 sh. XYZ Co.)\",\"Date acquired\",\"Date sold or disposed\",\"Cost or other basis\",\"Wash sale loss disallowed\",\"Form 8949 Code\""

/-- The fieldnames parsed from the header line lacking Proceeds. -/
def npFields : List String := parseCsvLine noProceedsHeader

/-- A valid six-field row for the header lacking Proceeds. -/
def npRow : List String := ["X co", "01/02/2023", "02/03/2024", "50", "", "A"]

/-! The claims. -/

/-- C2: for every row, record_type is a pure function of the trimmed,
uppercased Form 8949 Code: A maps to N321, B to N711, C to N712, D to N323,
E to N713, F to N714, X to N711, and any other or missing code yields N711
without raising an error (the classification function is total).  The third
conjunct shows the code string the classifier receives is the trimmed,
uppercased raw field; the fourth that the emitted record carries exactly the
classification of that code on its second line. -/
theorem c2_record_type_pure_function :
    (form_8949_to_record_type "A" = "N321" ∧ form_8949_to_record_type "B" = "N711" ∧
     form_8949_to_record_type "C" = "N712" ∧ form_8949_to_record_type "D" = "N323" ∧
     form_8949_to_record_type "E" = "N713" ∧ form_8949_to_record_type "F" = "N714" ∧
     form_8949_to_record_type "X" = "N711") ∧
    (∀ s : String, s ∉ (["A", "B", "C", "D", "E", "F", "X"] : List String) →
      form_8949_to_record_type s = "N711") ∧
    (∀ fn row f, extractFields fn row = some f →
      ∃ c0, dictGet fn row "Form 8949 Code" "" = some c0 ∧
        f.form_code = pyUpper (pyStrip c0)) ∧
    (∀ f ls p b w wa, normalizeRow f = RowOutcome.emitted ls p b w wa →
      ls.get? 1 = some (form_8949_to_record_type f.form_code)) := by
  refine ⟨by decide, ?_, ?_, ?_⟩
  · intro s hs
    simp only [List.mem_cons, List.not_mem_nil, or_false, not_or] at hs
    obtain ⟨h1, h2, h3, h4, h5, h6, h7⟩ := hs
    simp [form_8949_to_record_type, h1, h2, h3, h4, h5, h6, h7]
  · intro fn row f hf
    simp only [extractFields, Option.bind_eq_some, Option.some.injEq] at hf
    obtain ⟨d0, hd0, a0, ha0, s0, hs0, p0, hp0, b0, hb0, w0, hw0, c0, hc0, hf⟩ := hf
    exact ⟨c0, hc0, by rw [← hf]⟩
  · intro f ls p b w wa h
    obtain ⟨_, _, _, _, dt, daF, wfv, _, _, _, hls⟩ := normalizeRow_emitted f ls p b w wa h
    subst hls
    rfl

/-- Witness for C2 at concrete inputs. -/
theorem c2_witness :
    form_8949_to_record_type "Q" = "N711" ∧
    sampleBlock.get? 1 = some (form_8949_to_record_type fieldsA.form_code) := by
  constructor
  · exact c2_record_type_pure_function.2.1 "Q" (by decide)
  · exact c2_record_type_pure_function.2.2.2 fieldsA sampleBlock
      ⟨1500, 0⟩ ⟨1000, 0⟩ ⟨0, 0⟩ ⟨500, 0⟩ (by decide)

/-- C3: if no input line, once stripped, begins with the quoted header
literal, the conversion fails before any output is produced (no output
value exists, hence no output file and no totals); otherwise the first such
line is taken as the header row and conversion proceeds from it. -/
theorem c3_header_required (lines : List String) :
    ((∀ l ∈ lines, pyStartsWith (pyStrip l) headerLiteral = false) →
      convert_schwab_csv_to_txf lines = none) ∧
    (∀ i, findHeader lines = some i →
      pyStartsWith (pyStrip (lines.getD i "")) headerLiteral = true ∧
      (∀ j, j < i → pyStartsWith (pyStrip (lines.getD j "")) headerLiteral = false) ∧
      convert_schwab_csv_to_txf lines = some (convertFrom lines i)) := by
  constructor
  · intro h
    unfold convert_schwab_csv_to_txf
    rw [findHeader_eq_none lines h]
  · intro i hi
    obtain ⟨h1, h2⟩ := findHeader_some lines i hi
    refine ⟨h1, h2, ?_⟩
    unfold convert_schwab_csv_to_txf
    rw [hi]

/-- Witness for C3 at concrete inputs. -/
theorem c3_witness :
    convert_schwab_csv_to_txf ["no", "header", "here"] = none ∧
    (pyStartsWith (pyStrip (sampleLines.getD 2 "")) headerLiteral = true ∧
     (∀ j, j < 2 → pyStartsWith (pyStrip (sampleLines.getD j "")) headerLiteral = false) ∧
     convert_schwab_csv_to_txf sampleLines = some (convertFrom sampleLines 2)) := by
  constructor
  · exact (c3_header_required ["no", "header", "here"]).1 (by decide)
  · exact (c3_header_required sampleLines).2 2 (by decide)

/-- C6: the claim says a row with fewer fields than the header surfaces as a
logged, skipped row-level failure and processing continues.  The code
instead calls .strip() on the Python None that DictReader stores for the
missing trailing fields, raising an AttributeError that the per-row handler
(which only catches ValueError and KeyError) does not intercept: the row
loop aborts, later valid rows are not processed, and no totals are
reported.  This theorem evaluates the code at such an input: the short row
crashes, and in a file whose short row precedes a fully valid row the
output contains no record block and the run is not completed. -/
theorem c6_short_row_crashes :
    processRow stdFields ["100 sh. XYZ Co."] = RowOutcome.crashed ∧
    convert_schwab_csv_to_txf crashLines = some ⟨txfHeaderLines, Totals.zero, false⟩ := by
  constructor
  · decide
  · decide

/-- C9: the conversion is a pure function of the input lines, so two runs on
identical input produce byte-identical output, but the export-date line does
not depend on the current date: it is the hardcoded literal D02/23/2025
(source line 12), contradicting the source comment calling it the export
date (today).  The first conjunct evaluates the whole output on a concrete
input; the second shows every conversion places that same literal on the
third output line. -/
theorem c9_hardcoded_export_date :
    convert_schwab_csv_to_txf sampleLines =
      some ⟨["V042", "ACharles Schwab", "D02/23/2025", "^", "TD", "N321", "C1", "L1",
             "P100 sh. XYZ Co.", "D01/01/2023", "D02/01/2024", "$1000.00", "$1500.00", "^"],
            ⟨⟨150000, -2⟩, ⟨100000, -2⟩, ⟨0, 0⟩, ⟨50000, -2⟩⟩, true⟩ ∧
    (∀ lines i, (convertFrom lines i).output.get? 2 = some "D02/23/2025") := by
  constructor
  · decide
  · intro lines i
    rfl

/-- C4: for a row whose date-sold field parses as MM/DD/YYYY, the emitted
date-acquired line is the normalized date-sold when the trimmed field is
empty, the literal VARIOUS when it case-insensitively equals various, and
otherwise the strict re-parse of the field, the row being skipped (never
emitted) when that parse fails. -/
theorem c4_date_acquired_resolution (f : RawFields) (dt : Date)
    (hds : parseDateMDY f.date_sold = some dt) :
    (∀ ls p b w wa, normalizeRow f = RowOutcome.emitted ls p b w wa →
      ((f.date_acquired = "" → ls.get? 5 = some ("D" ++ formatDateMDY dt)) ∧
       (pyLower f.date_acquired = "various" → ls.get? 5 = some "DVARIOUS") ∧
       (f.date_acquired ≠ "" → pyLower f.date_acquired ≠ "various" →
         ∃ da, parseDateMDY f.date_acquired = some da ∧
           ls.get? 5 = some ("D" ++ formatDateMDY da)))) ∧
    (f.date_acquired ≠ "" → pyLower f.date_acquired ≠ "various" →
      parseDateMDY f.date_acquired = none →
      ∀ ls p b w wa, normalizeRow f ≠ RowOutcome.emitted ls p b w wa) := by
  constructor
  · intro ls p b w wa h
    obtain ⟨hp, hb, hw, hwa, dt2, daF, wfv, hdt2, hra, hwfv, hls⟩ :=
      normalizeRow_emitted f ls p b w wa h
    rw [hds] at hdt2
    simp only [Option.some.injEq] at hdt2
    subst hdt2
    refine ⟨?_, ?_, ?_⟩
    · intro he
      unfold resolveDateAcquired at hra
      rw [if_pos he] at hra
      injection hra with h2
      subst h2
      subst hls
      rfl
    · intro hv
      unfold resolveDateAcquired at hra
      by_cases he : f.date_acquired = ""
      · rw [he] at hv
        exact absurd hv (by decide)
      · rw [if_neg he, if_pos hv] at hra
        injection hra with h2
        subst h2
        subst hls
        rfl
    · intro he hv
      unfold resolveDateAcquired at hra
      rw [if_neg he, if_neg hv] at hra
      cases hda : parseDateMDY f.date_acquired with
      | none =>
        rw [hda] at hra
        simp at hra
      | some da =>
        rw [hda] at hra
        simp only [Option.map_some', Option.some.injEq] at hra
        subst hra
        subst hls
        exact ⟨da, rfl, rfl⟩
  · intro he hv hnone ls p b w wa h
    obtain ⟨hp, hb, hw, hwa, dt2, daF, wfv, hdt2, hra, hwfv, hls⟩ :=
      normalizeRow_emitted f ls p b w wa h
    unfold resolveDateAcquired at hra
    rw [if_neg he, if_neg hv, hnone] at hra
    simp at hra

/-- Witness for C4 at a concrete row whose date-acquired field is the word
Various. -/
theorem c4_witness :
    parseDateMDY fieldsVar.date_sold = some ⟨2, 3, 2024⟩ ∧
    List.get? ["TD", "N711", "C1", "L1", "PX co", "DVARIOUS", "D02/03/2024",
      "$50.00", "$100.00", "^"] 5 = some "DVARIOUS" := by
  refine ⟨by decide, ?_⟩
  have h := (c4_date_acquired_resolution fieldsVar ⟨2, 3, 2024⟩ (by decide)).1
    ["TD", "N711", "C1", "L1", "PX co", "DVARIOUS", "D02/03/2024", "$50.00", "$100.00", "^"]
    ⟨100, 0⟩ ⟨50, 0⟩ ⟨0, 0⟩ ⟨50, 0⟩ (by decide)
  exact h.2.1 (by decide)

/-- C5 counterexample: a row whose wash value 0.001 is non-zero, yet the
emitted record is the explicit ten-line block with no wash-sale line,
because the value formats to 0.00 and the writer re-parses the formatted
string before deciding to include the line. -/
theorem c5_counterexample :
    parseWash fieldsWashTiny.wash = some ⟨1, -3⟩ ∧
    (⟨1, -3⟩ : Money).isZero = false ∧
    (⟨1, -3⟩ : Money).toRat ≠ 0 ∧
    normalizeRow fieldsWashTiny =
      RowOutcome.emitted ["TD", "N321", "C1", "L1", "PX co", "D01/02/2023", "D02/03/2024",
        "$50.00", "$100.00", "^"] ⟨100, 0⟩ ⟨50, 0⟩ ⟨1, -3⟩ ⟨50001, -3⟩ ∧
    "$" ++ format2 ⟨1, -3⟩ ∉ ["TD", "N321", "C1", "L1", "PX co", "D01/02/2023", "D02/03/2024",
        "$50.00", "$100.00", "^"] := by
  refine ⟨by decide, by decide, ?_, by decide, by decide⟩
  exact fun h => absurd ((Money.isZero_iff ⟨1, -3⟩).mpr h) (by decide)

/-- C5 amended: for every emitted record, letting wfv be the re-parse of the
two-decimal formatting of the wash value: a zero wash value re-parses to
zero; when wfv is zero the record is the ten-line block with no wash-sale
line; when wfv is non-zero the record has eleven lines, the tenth being the
wash value formatted to exactly two decimal places.  In particular a
non-zero wash value that rounds to 0.00 produces no wash-sale line. -/
theorem c5_amended_wash_line (f : RawFields) (ls : List String) (p b w wa : Money)
    (h : normalizeRow f = RowOutcome.emitted ls p b w wa) :
    (w.isZero = true ↔ w.toRat = 0) ∧
    ∃ wfv, parseMoney (format2 w) = some wfv ∧
      (w.isZero = true → wfv.isZero = true) ∧
      (wfv.isZero = true → ls.length = 10) ∧
      (wfv.isZero = false →
        ls.length = 11 ∧ ls.get? 9 = some ("$" ++ format2 w) ∧
        decimalsAfterPoint (format2 w) = some 2) := by
  obtain ⟨hp, hb, hw, hwa, dt, daF, wfv, hdt, hra, hwfv, hls⟩ :=
    normalizeRow_emitted f ls p b w wa h
  subst hls
  refine ⟨Money.isZero_iff w, wfv, hwfv, ?_, ?_, ?_⟩
  · intro hz
    rw [format2_of_isZero w hz] at hwfv
    have h000 : parseMoney "0.00" = some (⟨0, -2⟩ : Money) := by decide
    rw [h000] at hwfv
    injection hwfv with h2
    subst h2
    decide
  · intro hz
    simp [hz, List.length_append]
  · intro hz
    refine ⟨?_, ?_, decimalsAfterPoint_format2 w⟩
    · simp [hz, List.length_append]
    · simp [hz]

/-- Witness for C5 amended at a concrete row with wash value 12.50. -/
theorem c5_amended_witness :
    ((⟨1250, -2⟩ : Money).isZero = true ↔ (⟨1250, -2⟩ : Money).toRat = 0) ∧
    ∃ wfv, parseMoney (format2 (⟨1250, -2⟩ : Money)) = some wfv ∧
      ((⟨1250, -2⟩ : Money).isZero = true → wfv.isZero = true) ∧
      (wfv.isZero = true →
        List.length ["TD", "N711", "C1", "L1", "PX co", "D01/02/2023", "D02/03/2024",
          "$50.00", "$100.00", "$12.50", "^"] = 10) ∧
      (wfv.isZero = false →
        List.length ["TD", "N711", "C1", "L1", "PX co", "D01/02/2023", "D02/03/2024",
          "$50.00", "$100.00", "$12.50", "^"] = 11 ∧
        List.get? ["TD", "N711", "C1", "L1", "PX co", "D01/02/2023", "D02/03/2024",
          "$50.00", "$100.00", "$12.50", "^"] 9 = some ("$" ++ format2 (⟨1250, -2⟩ : Money)) ∧
        decimalsAfterPoint (format2 (⟨1250, -2⟩ : Money)) = some 2) :=
  c5_amended_wash_line fieldsB
    ["TD", "N711", "C1", "L1", "PX co", "D01/02/2023", "D02/03/2024",
     "$50.00", "$100.00", "$12.50", "^"]
    ⟨100, 0⟩ ⟨50, 0⟩ ⟨1250, -2⟩ ⟨6250, -2⟩ (by decide)

/-- C7: a row whose monetary fields parse but whose date-sold or
date-acquired fails validation ends as a skipped row whose only non-zero
totals delta is the wash-adjusted gain/loss proceeds - (basis - wash);
the second conjunct shows the loop adds exactly those deltas while emitting
no record lines for the row. -/
theorem c7_washadj_accumulated_before_dates :
    (∀ f p b w, parseMoney f.proceeds = some p → parseMoney f.basis = some b →
      parseWash f.wash = some w →
      (parseDateMDY f.date_sold = none ∨
        ∃ dt, parseDateMDY f.date_sold = some dt ∧
          resolveDateAcquired f.date_acquired (formatDateMDY dt) = none) →
      normalizeRow f =
        RowOutcome.skipped Money.zero Money.zero Money.zero (p.sub (b.sub w)) ∧
      (p.sub (b.sub w)).toRat = p.toRat - (b.toRat - w.toRat) ∧ Money.zero.toRat = 0) ∧
    (∀ fn r rs p b w wa, processRow fn r = RowOutcome.skipped p b w wa →
      runRows fn (r :: rs) =
        ⟨(runRows fn rs).out, Totals.add ⟨p, b, w, wa⟩ (runRows fn rs).totals,
         (runRows fn rs).completed⟩) := by
  constructor
  · intro f p b w hp hb hw hd
    exact ⟨normalizeRow_dateFail f p b w hp hb hw hd,
      by rw [Money.toRat_sub, Money.toRat_sub], Money.toRat_zero⟩
  · intro fn r rs p b w wa h
    simp [runRows, h]

/-- Witness for C7 at a concrete row with an invalid date-sold field. -/
theorem c7_witness :
    normalizeRow fieldsBadDate =
      RowOutcome.skipped Money.zero Money.zero Money.zero
        (Money.sub ⟨100, 0⟩ (Money.sub ⟨50, 0⟩ ⟨2, 0⟩)) ∧
    (Money.sub ⟨100, 0⟩ (Money.sub ⟨50, 0⟩ ⟨2, 0⟩)).toRat =
      (⟨100, 0⟩ : Money).toRat - ((⟨50, 0⟩ : Money).toRat - (⟨2, 0⟩ : Money).toRat) ∧
    Money.zero.toRat = 0 :=
  c7_washadj_accumulated_before_dates.1 fieldsBadDate ⟨100, 0⟩ ⟨50, 0⟩ ⟨2, 0⟩
    (by decide) (by decide) (by decide) (Or.inl (by decide))

/-- C8: every two-decimal formatting has exactly two digits after the
decimal point; the input 1500 parses and formats to 1500.00; and in every
emitted record the basis and proceeds lines carry exactly the two-decimal
formatting of the parsed values. -/
theorem c8_two_decimal_places :
    (∀ a : Money, decimalsAfterPoint (format2 a) = some 2) ∧
    (parseMoney "1500" = some ⟨1500, 0⟩ ∧ format2 ⟨1500, 0⟩ = "1500.00") ∧
    (∀ f ls p b w wa, normalizeRow f = RowOutcome.emitted ls p b w wa →
      ls.get? 7 = some ("$" ++ format2 b) ∧ ls.get? 8 = some ("$" ++ format2 p)) := by
  refine ⟨decimalsAfterPoint_format2, by decide, ?_⟩
  intro f ls p b w wa h
  obtain ⟨_, _, _, _, dt, daF, wfv, _, _, _, hls⟩ := normalizeRow_emitted f ls p b w wa h
  subst hls
  exact ⟨rfl, rfl⟩

/-- Witness for C8 at concrete inputs. -/
theorem c8_witness :
    decimalsAfterPoint (format2 (⟨1, -3⟩ : Money)) = some 2 ∧
    (sampleBlock.get? 7 = some ("$" ++ format2 (⟨1000, 0⟩ : Money)) ∧
     sampleBlock.get? 8 = some ("$" ++ format2 (⟨1500, 0⟩ : Money))) :=
  ⟨c8_two_decimal_places.1 ⟨1, -3⟩,
   c8_two_decimal_places.2.2 fieldsA sampleBlock ⟨1500, 0⟩ ⟨1000, 0⟩ ⟨0, 0⟩ ⟨500, 0⟩ (by decide)⟩

/-- C10: a recognized column absent from the header raises no
missing-column error: lookup of an absent key yields the default, so the
string columns default to the empty string and the monetary columns to
0.00; with no Proceeds column every otherwise-valid row is still emitted,
its proceeds line being exactly 0.00 dollars. -/
theorem c10_missing_columns_default (fn row : List String) :
    (∀ key dflt, key ∉ fn → dictGet fn row key dflt = some dflt) ∧
    ("Proceeds" ∉ fn →
      (∀ f, extractFields fn row = some f →
        f.proceeds = "0.00" ∧ parseMoney f.proceeds = some ⟨0, -2⟩) ∧
      (∀ ls p b w wa, processRow fn row = RowOutcome.emitted ls p b w wa →
        p = ⟨0, -2⟩ ∧ ls.get? 8 = some "$0.00")) := by
  constructor
  · intro key dflt hk
    exact dictGet_of_not_mem fn row key dflt hk
  · intro hmem
    constructor
    · intro f hf
      have hpr := extractFields_proceeds_default fn row hmem f hf
      refine ⟨hpr, ?_⟩
      rw [hpr]
      decide
    · intro ls p b w wa h
      unfold processRow at h
      cases hext : extractFields fn row with
      | none =>
        rw [hext] at h
        simp at h
      | some f =>
        rw [hext] at h
        obtain ⟨hp, hb, hw, hwa, dt, daF, wfv, hdt, hra, hwfv, hls⟩ :=
          normalizeRow_emitted f ls p b w wa h
        have hpr := extractFields_proceeds_default fn row hmem f hext
        rw [hpr] at hp
        have h000 : parseMoney "0.00" = some (⟨0, -2⟩ : Money) := by decide
        rw [h000] at hp
        injection hp with h2
        subst h2
        refine ⟨rfl, ?_⟩
        subst hls
        show some ("$" ++ format2 (⟨0, -2⟩ : Money)) = some "$0.00"
        decide

/-- Witness for C10 at a concrete header lacking the Proceeds column. -/
theorem c10_witness :
    dictGet npFields npRow "Proceeds" "0.00" = some "0.00" ∧
    ((⟨0, -2⟩ : Money) = (⟨0, -2⟩ : Money) ∧
     List.get? ["TD", "N321", "C1", "L1", "PX co", "D01/02/2023", "D02/03/2024",
       "$50.00", "$0.00", "^"] 8 = some "$0.00") := by
  constructor
  · exact (c10_missing_columns_default npFields npRow).1 "Proceeds" "0.00" (by decide)
  · exact ((c10_missing_columns_default npFields npRow).2 (by decide)).2
      ["TD", "N321", "C1", "L1", "PX co", "D01/02/2023", "D02/03/2024", "$50.00", "$0.00", "^"]
      ⟨0, -2⟩ ⟨50, 0⟩ ⟨0, 0⟩ ⟨-5000, -2⟩ (by decide)

/-- C1: when a header is found, the conversion succeeds and its output is
the four TXF header lines followed by, for each successfully normalized
transaction of the processed rows in input order, exactly one record block;
and every such block is the lines TD, the record type, C1, L1, P plus the
description, D plus the resolved date acquired, D plus the normalized date
sold, dollar plus the two-decimal basis, dollar plus the two-decimal
proceeds, optionally a dollar wash-sale line, and the terminating caret. -/
theorem c1_record_blocks (lines : List String) (i : Nat)
    (h : findHeader lines = some i) :
    convert_schwab_csv_to_txf lines = some (convertFrom lines i) ∧
    (convertFrom lines i).output =
      txfHeaderLines ++
        ((takeUntilCrash (headerFieldnames lines i) (dataRowsOf lines i)).filterMap
          (emittedLines (headerFieldnames lines i))).flatten ∧
    (∀ r ls, emittedLines (headerFieldnames lines i) r = some ls →
      ∃ rt desc da ds fb fp wl,
        ls = ["TD", rt, "C1", "L1", "P" ++ desc, "D" ++ da, "D" ++ ds,
              "$" ++ format2 fb, "$" ++ format2 fp] ++ wl ++ ["^"] ∧
        (wl = [] ∨ ∃ fw : Money, wl = ["$" ++ format2 fw])) := by
  refine ⟨?_, ?_, ?_⟩
  · unfold convert_schwab_csv_to_txf
    rw [h]
  · show txfHeaderLines ++ (runRows (headerFieldnames lines i) (dataRowsOf lines i)).out =
      txfHeaderLines ++
        ((takeUntilCrash (headerFieldnames lines i) (dataRowsOf lines i)).filterMap
          (emittedLines (headerFieldnames lines i))).flatten
    rw [runRows_out]
  · intro r ls hel
    unfold emittedLines at hel
    cases hpr : processRow (headerFieldnames lines i) r with
    | crashed => simp [hpr] at hel
    | skipped p b w wa => simp [hpr] at hel
    | emitted ls0 p b w wa =>
      simp only [hpr, Option.some.injEq] at hel
      subst hel
      unfold processRow at hpr
      cases hext : extractFields (headerFieldnames lines i) r with
      | none =>
        rw [hext] at hpr
        simp at hpr
      | some f =>
        rw [hext] at hpr
        obtain ⟨hp, hb, hw, hwa, dt, daF, wfv, hdt, hra, hwfv, hls⟩ :=
          normalizeRow_emitted f ls0 p b w wa hpr
        refine ⟨form_8949_to_record_type f.form_code, f.description, daF, formatDateMDY dt,
          b, p, (if !wfv.isZero then ["$" ++ format2 w] else []), hls, ?_⟩
        by_cases hz : wfv.isZero
        · left
          simp [hz]
        · right
          exact ⟨w, by simp [Bool.eq_false_iff.mpr hz]⟩

/-- Witness for C1 at a concrete input file with the header on line 3. -/
theorem c1_witness :
    convert_schwab_csv_to_txf sampleLines = some (convertFrom sampleLines 2) ∧
    (convertFrom sampleLines 2).output =
      txfHeaderLines ++
        ((takeUntilCrash (headerFieldnames sampleLines 2) (dataRowsOf sampleLines 2)).filterMap
          (emittedLines (headerFieldnames sampleLines 2))).flatten ∧
    (∀ r ls, emittedLines (headerFieldnames sampleLines 2) r = some ls →
      ∃ rt desc da ds fb fp wl,
        ls = ["TD", rt, "C1", "L1", "P" ++ desc, "D" ++ da, "D" ++ ds,
              "$" ++ format2 fb, "$" ++ format2 fp] ++ wl ++ ["^"] ∧
        (wl = [] ∨ ∃ fw : Money, wl = ["$" ++ format2 fw])) :=
  c1_record_blocks sampleLines 2 (by decide)

end SchwabTxf
